import Mathlib

/-!
Verification of the Tegra GPU macro execution engine of this repository
(src/video_core/macro): the opcode decoder (macro.h), the bytecode
interpreter (macro_interpreter.cpp), the x64 JIT backend
(macro_jit_x64.cpp), and the compiled-macro cache facade (macro.cpp).

Machine integers are modelled as `Nat` values kept below `2 ^ 32`, with
explicit `% 2 ^ 32` wherever the 32-bit source arithmetic can wrap.
Failure paths (ASSERT, UNIMPLEMENTED_MSG, out-of-bounds parameter access)
are modelled with `Except`.  Recursion in the source (delay-slot recursion
in `Step`, the compile loop) is modelled with explicit fuel.

The engine-register collaborator (Maxwell3D) is external to the engine and
is modelled at its interface boundary: reads come from an oracle
`Nat → Nat` (`GetRegisterValue` / `regs.reg_array`), writes (`WriteReg`)
are recorded in an event trace.

C++ shifts by a dynamic register value (`src >> dst` with `dst` a `u32`)
are undefined for counts ≥ 32; both backends target x86, whose 32-bit
shift instructions mask the count to 5 bits, so dynamic shift counts are
modelled as `count % 32` (the shift counts taken from 5-bit opcode fields
are always < 32 and are unaffected).
-/

namespace YuzuMacroEngine

/-- 2 ^ 32, the modulus of the 32-bit machine arithmetic. -/
def U32 : Nat := 4294967296

/-- Extract `sz` bits of `w` starting at bit `lo` (BitField<lo, sz, _>). -/
def bits (w lo sz : Nat) : Nat := (w >>> lo) % (2 ^ sz)

/-! ## Opcode decoder (macro.h, union Opcode)

Each field is a pure function of the 32-bit code word, at the exact bit
positions of the BitField declarations. -/

/-- BitField<0, 3, Operation>. -/
def operation (w : Nat) : Nat := bits w 0 3

/-- BitField<4, 3, ResultOperation>. -/
def resultOp (w : Nat) : Nat := bits w 4 3

/-- BitField<4, 1, BranchCondition>: 0 = Zero, 1 = NotZero. -/
def branchCondition (w : Nat) : Nat := bits w 4 1

/-- BitField<5, 1, u32> branch_annul. -/
def branchAnnul (w : Nat) : Nat := bits w 5 1

/-- BitField<7, 1, u32> is_exit. -/
def isExit (w : Nat) : Nat := bits w 7 1

/-- BitField<8, 3, u32> dst. -/
def dst (w : Nat) : Nat := bits w 8 3

/-- BitField<11, 3, u32> src_a. -/
def srcA (w : Nat) : Nat := bits w 11 3

/-- BitField<14, 3, u32> src_b. -/
def srcB (w : Nat) : Nat := bits w 14 3

/-- BitField<14, 18, s32> immediate: an 18-bit two's-complement value that
overlaps `src_b` and `alu_operation`. -/
def immediate (w : Nat) : Int :=
  let v := bits w 14 18
  if v < 131072 then (v : Int) else (v : Int) - 262144

/-- BitField<17, 5, ALUOperation>. -/
def aluOp (w : Nat) : Nat := bits w 17 5

/-- BitField<17, 5, u32> bf_src_bit. -/
def bfSrcBit (w : Nat) : Nat := bits w 17 5

/-- BitField<22, 5, u32> bf_size. -/
def bfSize (w : Nat) : Nat := bits w 22 5

/-- BitField<27, 5, u32> bf_dst_bit. -/
def bfDstBit (w : Nat) : Nat := bits w 27 5

/-- Opcode::GetBitfieldMask: `(1 << bf_size) - 1`. -/
def bitfieldMask (w : Nat) : Nat := 2 ^ bfSize w - 1

/-- Opcode::GetBranchTarget: `immediate * sizeof(u32)`, a signed byte offset. -/
def branchTarget (w : Nat) : Int := immediate w * 4

/-! ## 32-bit arithmetic helpers -/

/-- 32-bit wrapping addition. -/
def add32 (a b : Nat) : Nat := (a + b) % U32

/-- 32-bit wrapping subtraction (`a - b` on u32). -/
def sub32 (a b : Nat) : Nat := (a + (U32 - b % U32)) % U32

/-- 32-bit bitwise complement (`~a`). -/
def comp32 (a : Nat) : Nat := (a % U32) ^^^ (U32 - 1)

/-- u32 + s32 as performed by `u32 + immediate` in the source: two's
complement addition, truncated to 32 bits. -/
def addImm32 (a : Nat) (i : Int) : Nat := (((a : Int) + i) % (U32 : Int)).toNat

/-- 32-bit left shift with the x86 count mask (count taken mod 32). -/
def shl32 (a c : Nat) : Nat := (a <<< (c % 32)) % U32

/-- 32-bit logical right shift with the x86 count mask. -/
def shr32 (a c : Nat) : Nat := (a % U32) >>> (c % 32)

/-! ## Events and errors -/

/-- One interaction with the external engine-register collaborator:
`send a v` is `WriteReg(a, v, 0)`, `read a` is `GetRegisterValue(a)`. -/
inductive MEvent where
  | send (addr val : Nat)
  | read (addr : Nat)
deriving Repr, DecidableEq

/-- Failure modes of the engine: ASSERT / UNIMPLEMENTED_MSG sites and
out-of-bounds accesses.  Modelled from the spec: common/assert.h is not in
the sources; §7 of the spec says all of these abort the current
Execute/compile call and surface an error to the caller. -/
inductive MacroError where
  | misalignedPc
  | pcOutOfRange
  | delayedOutsideSlot
  | branchInDelaySlot
  | unimplementedAlu
  | unimplementedOp
  | paramOverrun
  | paramCountMismatch
  | emptyParameters
  | jumpTargetOutOfRange
  | unboundLabel
  | outOfFuel
deriving Repr, DecidableEq

/-! ## Shared instruction fetch

`InterpretedMacro::GetOpcode` and `JitMacro::GetOpcode` have identical
bodies: assert `pc % 4 == 0`, assert `pc < code.size() * 4`, then read
`code[pc / 4]`. -/

/-- GetOpcode: the alignment assert, then the bounds assert, then the
code-buffer read (shared verbatim by both backends). -/
def getOpcode (code : List Nat) (pc : Nat) : Except MacroError Nat :=
  if pc % 4 ≠ 0 then .error .misalignedPc
  else if pc < code.length * 4 then .ok (code.getD (pc / 4) 0)
  else .error .pcOutOfRange

/-! ## Interpreter state (macro_interpreter.h) -/

/-- Per-invocation mutable state of InterpretedMacro. -/
structure IState where
  /-- The 8 general-purpose registers. -/
  registers : List Nat
  /-- Current program counter (byte address). -/
  pc : Nat
  /-- Pending branch target (boost::optional<u32> delayed_pc). -/
  delayedPc : Option Nat
  /-- Raw 32-bit method_address value. -/
  methodAddress : Nat
  /-- Caller-supplied parameters. -/
  parameters : List Nat
  /-- Index of the next parameter to fetch. -/
  nextParameterIndex : Nat
deriving Repr, DecidableEq

/-- InterpretedMacro::GetRegister: register 0 always reads as 0. -/
def iGetRegister (st : IState) (i : Nat) : Nat :=
  if i = 0 then 0 else st.registers.getD i 0

/-- InterpretedMacro::SetRegister: a store to register 0 is a no-op. -/
def iSetRegister (st : IState) (i v : Nat) : IState :=
  if i = 0 then st else { st with registers := st.registers.set i v }

/-- InterpretedMacro::SetMethodAddress: `method_address.raw = address`. -/
def iSetMethodAddress (st : IState) (v : Nat) : IState :=
  { st with methodAddress := v }

/-- InterpretedMacro::FetchParameter: asserts the cursor is in range, then
returns `parameters[next_parameter_index++]`. -/
def fetchParameter (st : IState) : Except MacroError (Nat × IState) :=
  if h : st.nextParameterIndex < st.parameters.length then
    .ok (st.parameters.get ⟨st.nextParameterIndex, h⟩,
         { st with nextParameterIndex := st.nextParameterIndex + 1 })
  else .error .paramOverrun

/-- InterpretedMacro::Send: WriteReg at the low-12-bit `address` field of
method_address, then `address.Assign(address + increment)` (the BitField
Assign truncates the sum to the 12-bit field; `increment` is bits 12-17). -/
def interpSend (st : IState) (v : Nat) : IState × MEvent :=
  let addr := st.methodAddress % 4096
  let inc := (st.methodAddress >>> 12) % 64
  ({ st with methodAddress := st.methodAddress / 4096 * 4096 + (addr + inc) % 4096 },
   .send addr v)

/-- InterpretedMacro::GetALUResult; AddWithCarry (1), SubtractWithBorrow
(3) and all undocumented encodings hit UNIMPLEMENTED_MSG. -/
def getALUResult (op a b : Nat) : Except MacroError Nat :=
  if op = 0 then .ok (add32 a b)
  else if op = 2 then .ok (sub32 a b)
  else if op = 8 then .ok (a ^^^ b)
  else if op = 9 then .ok (a ||| b)
  else if op = 10 then .ok (a &&& b)
  else if op = 11 then .ok (a &&& comp32 b)
  else if op = 12 then .ok (comp32 (a &&& b))
  else .error .unimplementedAlu

/-- InterpretedMacro::ProcessResult: the 8 result operations (all 3-bit
encodings are handled; the C++ default arm is unreachable). -/
def processResult (rop reg result : Nat) (st : IState) :
    Except MacroError (IState × List MEvent) :=
  if rop = 0 then do
    -- IgnoreAndFetch
    let (p, st) ← fetchParameter st
    .ok (iSetRegister st reg p, [])
  else if rop = 1 then
    -- Move
    .ok (iSetRegister st reg result, [])
  else if rop = 2 then
    -- MoveAndSetMethod
    .ok (iSetMethodAddress (iSetRegister st reg result) result, [])
  else if rop = 3 then do
    -- FetchAndSend
    let (p, st) ← fetchParameter st
    let (st, ev) := interpSend (iSetRegister st reg p) result
    .ok (st, [ev])
  else if rop = 4 then
    -- MoveAndSend
    let (st, ev) := interpSend (iSetRegister st reg result) result
    .ok (st, [ev])
  else if rop = 5 then do
    -- FetchAndSetMethod
    let (p, st) ← fetchParameter st
    .ok (iSetMethodAddress (iSetRegister st reg p) result, [])
  else if rop = 6 then do
    -- MoveAndSetMethodFetchAndSend
    let st := iSetMethodAddress (iSetRegister st reg result) result
    let (p, st) ← fetchParameter st
    let (st, ev) := interpSend st p
    .ok (st, [ev])
  else
    -- MoveAndSetMethodSend: send bits 12:17 of the result
    let st := iSetMethodAddress (iSetRegister st reg result) result
    let (st, ev) := interpSend st ((result >>> 12) &&& 63)
    .ok (st, [ev])

/-- The non-branch arms of the `switch (opcode.operation)` in
InterpretedMacro::Step: operations 0-5 compute a result and hand it to
ProcessResult; operation 6 (Unused) and any other value hit the
UNIMPLEMENTED_MSG default arm. -/
def interpDispatch (oracle : Nat → Nat) (w : Nat) (st : IState) :
    Except MacroError (IState × List MEvent) :=
  if operation w = 0 then do
    let r ← getALUResult (aluOp w) (iGetRegister st (srcA w)) (iGetRegister st (srcB w))
    processResult (resultOp w) (dst w) r st
  else if operation w = 1 then
    processResult (resultOp w) (dst w) (addImm32 (iGetRegister st (srcA w)) (immediate w)) st
  else if operation w = 2 then
    let d := iGetRegister st (srcA w)
    let s := iGetRegister st (srcB w)
    let s := (s >>> bfSrcBit w) &&& bitfieldMask w
    let d := d &&& comp32 ((bitfieldMask w <<< bfDstBit w) % U32)
    let d := d ||| (s <<< bfDstBit w) % U32
    processResult (resultOp w) (dst w) d st
  else if operation w = 3 then
    let d := iGetRegister st (srcA w)
    let s := iGetRegister st (srcB w)
    processResult (resultOp w) (dst w) (shl32 ((shr32 s d) &&& bitfieldMask w) (bfDstBit w)) st
  else if operation w = 4 then
    let d := iGetRegister st (srcA w)
    let s := iGetRegister st (srcB w)
    processResult (resultOp w) (dst w) (shl32 ((s >>> bfSrcBit w) &&& bitfieldMask w) d) st
  else if operation w = 5 then do
    let addr := addImm32 (iGetRegister st (srcA w)) (immediate w)
    let (st2, evs) ← processResult (resultOp w) (dst w) (oracle addr) st
    .ok (st2, .read addr :: evs)
  else .error .unimplementedOp

/-- InterpretedMacro::Step.  Returns whether the executor should keep
running, the new state, and the events of this step chain.  Fuel bounds
the delay-slot recursion (`Step(true)` for taken branches and exits). -/
def interpStep (oracle : Nat → Nat) (code : List Nat) :
    Nat → Bool → IState → Except MacroError (Bool × IState × List MEvent)
  | 0, _, _ => .error .outOfFuel
  | fuel + 1, isDelaySlot, st => do
    let base := st.pc
    let w ← getOpcode code st.pc
    let st := { st with pc := st.pc + 4 }
    let st ← match st.delayedPc with
      | some t =>
        if isDelaySlot then pure { st with pc := t, delayedPc := none }
        else .error .delayedOutsideSlot
      | none => pure st
    if operation w = 7 then
      -- Branch: asserts it is not itself in a delay slot, evaluates the
      -- condition against register src_a.
      if isDelaySlot then .error .branchInDelaySlot
      else
        let v := iGetRegister st (srcA w)
        let taken := if branchCondition w = 0 then v = 0 else v ≠ 0
        if taken then
          if branchAnnul w = 1 then
            -- Annulled: jump now, skip the delay slot and the exit check.
            .ok (true, { st with pc := addImm32 base (branchTarget w) }, [])
          else do
            -- Record the target, execute one more step as the delay slot;
            -- its keep-running flag is returned directly.
            let st := { st with delayedPc := some (addImm32 base (branchTarget w)) }
            interpStep oracle code fuel true st
        else
          -- Not taken: fall through to the exit check.
          if isExit w = 1 then do
            let (_, st, evs) ← interpStep oracle code fuel true st
            .ok (false, st, evs)
          else .ok (true, st, [])
    else do
      let (st, evs) ← interpDispatch oracle w st
      if isExit w = 1 then do
        -- Exit has a delay slot: execute one more step, then stop.
        let (_, st, evs2) ← interpStep oracle code fuel true st
        .ok (false, st, evs ++ evs2)
      else .ok (true, st, evs)

/-- The `while (keep_executing)` loop of InterpretedMacro::Execute. -/
def interpRunLoop (oracle : Nat → Nat) (code : List Nat) :
    Nat → IState → List MEvent → Except MacroError (IState × List MEvent)
  | 0, _, _ => .error .outOfFuel
  | fuel + 1, st, evs => do
    let (keep, st, evs2) ← interpStep oracle code (fuel + 1) false st
    if keep then interpRunLoop oracle code fuel st (evs ++ evs2)
    else .ok (st, evs ++ evs2)

/-- The fresh state built by InterpretedMacro::Reset followed by
`registers[1] = parameters[0]` (a direct array store). -/
def interpInit (params : List Nat) : IState :=
  { registers := (List.replicate 8 0).set 1 (params.getD 0 0)
    pc := 0
    delayedPc := none
    methodAddress := 0
    parameters := params
    nextParameterIndex := 1 }

/-- InterpretedMacro::Execute: Reset, preload register 1 with the first
parameter, run to an exit condition, then assert that the macro consumed
exactly the whole parameter list. -/
def interpExecute (oracle : Nat → Nat) (code params : List Nat) (fuel : Nat) :
    Except MacroError (IState × List MEvent) :=
  match params with
  | [] => .error .emptyParameters
  | _ :: _ => do
    let (st, evs) ← interpRunLoop oracle code fuel (interpInit params) []
    if st.nextParameterIndex = st.parameters.length then .ok (st, evs)
    else .error .paramCountMismatch

/-! ## JIT backend (macro_jit_x64.cpp)

The JIT is modelled as a compiler from the code-word list to a small IR
that mirrors the emitted x86 one block per emission site:

* `label i`     — `L(instruction_labels[i])` (and, with ids ≥ 65536, the
                  local `taken`/`end` labels of Compile_Branch);
* `init`        — the prologue: `xor NEXT_PARAMETER / RESULT /
                  METHOD_ADDRESS` (the register array in JitState is NOT
                  touched here: it is zeroed once, at JitMacro
                  construction);
* `op w`        — the straight-line block emitted by the Compile_* routine
                  for non-branch operation `w`, including its
                  Compile_ProcessResult tail;
* `condJump w t` — `cmp reg,0` + `je/jne taken` of Compile_Branch;
* `jump t`      — an unconditional `jmp`;
* `ret`         — the epilogue.

The semantics of each block (`jitOpSem` below) is read off the emitted
assembly instruction by instruction, not from the interpreter. -/

/-- One linear block of the generated native code. -/
inductive JInstr where
  | label (id : Nat)
  | init
  | op (w : Nat)
  | condJump (w : Nat) (target : Nat)
  | jump (target : Nat)
  | ret
deriving Repr, DecidableEq

/-- Compile-time state of JitMacro::Compile: the compile-time program
counter, the code emitted so far, a supply of fresh ids for the local
`taken`/`end` labels (instruction labels use ids `pc / 4` < 65536), and
the number of LOG_CRITICAL messages for unhandled instructions. -/
structure CompState where
  pc : Nat
  prog : List JInstr
  nextLabel : Nat
  criticalLogs : Nat
deriving Repr, DecidableEq

/-- JitMacro::Compile_NextInstruction (with Compile_Branch inlined):
fetch, bind the instruction label, advance pc, dispatch on the operation
through instr_table, then handle is_exit by compiling the delay-slot
instruction and stopping.  Returns the `keep_executing` flag.

Faithful quirks of the source kept here:
* operation 6 (Unused) has a null instr_table entry: it only logs
  (LOG_CRITICAL) and continues — compilation is NOT aborted;
* Compile_ALU's unimplemented default arm emits nothing, so the block
  degenerates to `RESULT := regs[src_a]` (see `jitOpSem`) — again no
  abort;
* Compile_Branch computes `jump_address = pc + GetBranchTarget()` from
  the ALREADY advanced pc (the interpreter uses the branch's own
  address), before compiling the delay slot;
* in the non-annulled case the delay-slot instruction is compiled inline
  in the taken path and its keep-executing result is discarded;
* a jump_address whose word index is negative or ≥ 65536 indexes outside
  instruction_labels — modelled as a compile error. -/
def jitCompileStep (code : List Nat) :
    Nat → CompState → Except MacroError (Bool × CompState)
  | 0, _ => .error .outOfFuel
  | fuel + 1, cs => do
    let w ← getOpcode code cs.pc
    let cs := { cs with prog := cs.prog ++ [JInstr.label (cs.pc / 4)], pc := cs.pc + 4 }
    let cs ←
      if operation w = 6 then
        .ok { cs with criticalLogs := cs.criticalLogs + 1 }
      else if operation w = 7 then do
        let takenL := cs.nextLabel
        let endL := cs.nextLabel + 1
        let cs := { cs with
          nextLabel := cs.nextLabel + 2
          prog := cs.prog ++ [JInstr.condJump w takenL, JInstr.jump endL, JInstr.label takenL] }
        let jumpAddress : Int := (cs.pc : Int) + branchTarget w
        let cs ←
          if branchAnnul w = 1 then pure cs
          else do
            let (_, cs) ← jitCompileStep code fuel cs
            pure cs
        if 0 ≤ jumpAddress ∧ jumpAddress.toNat / 4 < 65536 then
          .ok { cs with prog := cs.prog ++ [JInstr.jump (jumpAddress.toNat / 4), JInstr.label endL] }
        else .error .jumpTargetOutOfRange
      else
        .ok { cs with prog := cs.prog ++ [JInstr.op w] }
    if isExit w = 1 then do
      let (_, cs) ← jitCompileStep code fuel cs
      .ok (false, cs)
    else .ok (true, cs)

/-- The `while (keep_executing)` loop of JitMacro::Compile. -/
def jitCompileLoop (code : List Nat) :
    Nat → CompState → Except MacroError CompState
  | 0, _ => .error .outOfFuel
  | fuel + 1, cs => do
    let (keep, cs) ← jitCompileStep code (fuel + 1) cs
    if keep then jitCompileLoop code fuel cs else .ok cs

/-- JitMacro::Compile: prologue, compile loop, epilogue.  Returns the
generated program and the LOG_CRITICAL count. -/
def jitCompile (code : List Nat) (fuel : Nat) :
    Except MacroError (List JInstr × Nat) := do
  let cs ← jitCompileLoop code fuel
    { pc := 0, prog := [JInstr.init], nextLabel := 65536, criticalLogs := 0 }
  .ok (cs.prog ++ [.ret], cs.criticalLogs)

/-- Run-time state of the generated code: the JitState register array in
memory plus the persistent machine registers NEXT_PARAMETER (cursor),
RESULT and METHOD_ADDRESS.  Only register indices 0-7 are addressable
(3-bit fields), so the 16-entry JitState array is modelled by its first
8 entries. -/
structure JState where
  registers : List Nat
  cursor : Nat
  result : Nat
  methodAddress : Nat
deriving Repr, DecidableEq

/-- Compile_FetchParameter: `mov edi, dword[PARAMETERS + NEXT_PARAMETER*4]`,
then `inc NEXT_PARAMETER`.  There is no bounds check.  Note that the
prologue sets PARAMETERS to `&state.parameters` (the address OF the
pointer field) without dereferencing it, so the 32-bit words this load
actually reads are the bytes of JitState itself, not the caller's
parameter array; they are modelled by the abstract memory `paramMem`. -/
def jitFetchParameter (paramMem : Nat → Nat) (st : JState) : Nat × JState :=
  (paramMem st.cursor, { st with cursor := st.cursor + 1 })

/-- Compile_Send's emitted call site: WriteReg at `METHOD_ADDRESS >> 20`
(the comment claims the address field is the 12 highest bits), then
`METHOD_ADDRESS += (METHOD_ADDRESS << 6) & (0b111111 << 20)`. -/
def jitSend (st : JState) (v : Nat) : JState × MEvent :=
  let addr := st.methodAddress >>> 20
  let inc := ((st.methodAddress <<< 6) % U32) &&& 66060288
  ({ st with methodAddress := (st.methodAddress + inc) % U32 }, .send addr v)

/-- Compile_ProcessResult: `SetRegister` is an unconditional
`mov dword[REGISTERS + reg*4], v` (no special case for register 0);
`SetMethodAddress` is `mov METHOD_ADDRESS, RESULT`.  Case 7 does
`sar RESULT, 12; and RESULT, 63` before sending (for bits 12:17 the
arithmetic and logical shifts agree after the mask, but RESULT is
clobbered in place). -/
def jitProcessResult (paramMem : Nat → Nat) (rop reg : Nat) (st : JState) :
    JState × List MEvent :=
  let setR := fun (st : JState) (v : Nat) =>
    { st with registers := st.registers.set reg v }
  if rop = 0 then
    let (p, st) := jitFetchParameter paramMem st
    (setR st p, [])
  else if rop = 1 then
    (setR st st.result, [])
  else if rop = 2 then
    ({ setR st st.result with methodAddress := st.result }, [])
  else if rop = 3 then
    let (p, st) := jitFetchParameter paramMem st
    let (st, ev) := jitSend (setR st p) st.result
    (st, [ev])
  else if rop = 4 then
    let (st, ev) := jitSend (setR st st.result) st.result
    (st, [ev])
  else if rop = 5 then
    let (p, st) := jitFetchParameter paramMem st
    ({ setR st p with methodAddress := st.result }, [])
  else if rop = 6 then
    let st := { setR st st.result with methodAddress := st.result }
    let (p, st) := jitFetchParameter paramMem st
    let (st, ev) := jitSend st p
    (st, [ev])
  else
    let st := { setR st st.result with methodAddress := st.result }
    let st := { st with result := (st.result >>> 12) &&& 63 }
    let (st, ev) := jitSend st st.result
    (st, [ev])

/-- The run-time effect of the block emitted for one non-branch
instruction, read off the emitted assembly:

* ALU: loads regs[src_a] and regs[src_b] (Compile_GetRegister has no
  register-0 special case), applies the x86 arithmetic — the default arm
  for AddWithCarry/SubtractWithBorrow and invalid encodings emits nothing,
  leaving RESULT = regs[src_a];
* AddImmediate: `add RESULT, imm`;
* ExtractInsert: shr/and/shl on src, and with the inverted mask, or;
* ExtractShiftLeftImmediate: `shl src, cl` — a LEFT shift by regs[src_a]
  (the comment above it says `src >> dst`), then and, then sal;
* ExtractShiftLeftRegister: `shl src, bf_src_bit` then and then
  `shr src, cl` — the two shift directions are swapped relative to the
  interpreter;
* Read: `regs.reg_array[regs[src_a] + imm]` via the oracle. -/
def jitOpSem (paramMem oracle : Nat → Nat) (w : Nat) (st : JState) :
    JState × List MEvent :=
  if operation w = 0 then
    let a := st.registers.getD (srcA w) 0
    let b := st.registers.getD (srcB w) 0
    let v :=
      if aluOp w = 0 then add32 a b
      else if aluOp w = 2 then sub32 a b
      else if aluOp w = 8 then a ^^^ b
      else if aluOp w = 9 then a ||| b
      else if aluOp w = 10 then a &&& b
      else if aluOp w = 11 then a &&& comp32 b
      else if aluOp w = 12 then comp32 (a &&& b)
      else a
    jitProcessResult paramMem (resultOp w) (dst w) { st with result := v }
  else if operation w = 1 then
    let v := addImm32 (st.registers.getD (srcA w) 0) (immediate w)
    jitProcessResult paramMem (resultOp w) (dst w) { st with result := v }
  else if operation w = 2 then
    let d := st.registers.getD (srcA w) 0
    let s := st.registers.getD (srcB w) 0
    let s := (((s >>> bfSrcBit w) &&& bitfieldMask w) <<< bfDstBit w) % U32
    let d := d &&& comp32 ((bitfieldMask w <<< bfDstBit w) % U32)
    jitProcessResult paramMem (resultOp w) (dst w) { st with result := d ||| s }
  else if operation w = 3 then
    let c := st.registers.getD (srcA w) 0
    let s := st.registers.getD (srcB w) 0
    let s := ((shl32 s c &&& bitfieldMask w) <<< bfDstBit w) % U32
    jitProcessResult paramMem (resultOp w) (dst w) { st with result := s }
  else if operation w = 4 then
    let c := st.registers.getD (srcA w) 0
    let s := st.registers.getD (srcB w) 0
    let s := shr32 (shl32 s (bfSrcBit w) &&& bitfieldMask w) c
    jitProcessResult paramMem (resultOp w) (dst w) { st with result := s }
  else if operation w = 5 then
    let addr := addImm32 (st.registers.getD (srcA w) 0) (immediate w)
    let (st, evs) :=
      jitProcessResult paramMem (resultOp w) (dst w) { st with result := oracle addr }
    (st, .read addr :: evs)
  else
    -- Never emitted: operations 6 and 7 do not produce an `op` block.
    (st, [])

/-- Position of the (unique) binding of label `id` in the generated code. -/
def findLabel (prog : List JInstr) (id : Nat) : Option Nat :=
  prog.findIdx? (· = JInstr.label id)

/-- Executes the generated code from instruction position `ip`.  A jump to
a label that was never bound is an error (xbyak would refuse to finalize
such code). -/
def jitRunFrom (prog : List JInstr) (paramMem oracle : Nat → Nat) :
    Nat → Nat → JState → List MEvent → Except MacroError (JState × List MEvent)
  | 0, _, _, _ => .error .outOfFuel
  | fuel + 1, ip, st, evs =>
    match prog.get? ip with
    | none => .error .pcOutOfRange
    | some i =>
      match i with
      | .label _ => jitRunFrom prog paramMem oracle fuel (ip + 1) st evs
      | .init =>
        jitRunFrom prog paramMem oracle fuel (ip + 1)
          { st with cursor := 0, result := 0, methodAddress := 0 } evs
      | .op w =>
        let (st, evs2) := jitOpSem paramMem oracle w st
        jitRunFrom prog paramMem oracle fuel (ip + 1) st (evs ++ evs2)
      | .condJump w target =>
        let v := st.registers.getD (srcB w) 0
        let taken := if branchCondition w = 0 then v = 0 else v ≠ 0
        if taken then
          match findLabel prog target with
          | some j => jitRunFrom prog paramMem oracle fuel j st evs
          | none => .error .unboundLabel
        else jitRunFrom prog paramMem oracle fuel (ip + 1) st evs
      | .jump target =>
        match findLabel prog target with
        | some j => jitRunFrom prog paramMem oracle fuel j st evs
        | none => .error .unboundLabel
      | .ret => .ok (st, evs)

/-- A JitMacro object: the generated program plus the JitState register
array, which is zero-initialized at construction and NOT cleared by the
generated prologue, so it persists across Execute calls. -/
structure JitCompiled where
  prog : List JInstr
  registers : List Nat
deriving Repr, DecidableEq

/-- JitMacro::JitMacro: compile once at construction; `state.registers`
starts zeroed. -/
def jitNew (code : List Nat) (fuel : Nat) : Except MacroError JitCompiled := do
  let (p, _) ← jitCompile code fuel
  .ok { prog := p, registers := List.replicate 8 0 }

/-- Fresh machine-register state at entry of the generated code (the
prologue zeroes cursor/result/methodAddress before any use). -/
def jInit (regs : List Nat) : JState :=
  { registers := regs, cursor := 0, result := 0, methodAddress := 0 }

/-- JitMacro::Execute: runs the generated program against the persistent
register array; only the register array survives the call. -/
def jitExecute (jm : JitCompiled) (paramMem oracle : Nat → Nat) (fuel : Nat) :
    Except MacroError (JitCompiled × List MEvent) := do
  let (st, evs) ← jitRunFrom jm.prog paramMem oracle fuel 0 (jInit jm.registers) []
  .ok ({ jm with registers := st.registers }, evs)

/-- Compile-then-run harness exposing the final machine state (used to
observe METHOD_ADDRESS at the end of a run). -/
def jitRunCode (code : List Nat) (paramMem oracle : Nat → Nat)
    (fuelC fuelR : Nat) : Except MacroError (JState × List MEvent) := do
  let (p, _) ← jitCompile code fuelC
  jitRunFrom p paramMem oracle fuelR 0 (jInit (List.replicate 8 0)) []

/-! ## Compiled-macro cache / engine facade (macro.cpp)

std::unordered_map is modelled by an association list with
first-match lookup; `macro_cache[method] = Compile(code)` on a missing key
is an insertion.  The backend's Compile is abstracted by snapshotting the
code buffer the CachedMacro was built from (C9 is about when compilation
happens, not what it produces), and invocation by an event. -/

/-- Association-list lookup (std::unordered_map::find). -/
def alistFind (m : List (Nat × List Nat)) (k : Nat) : Option (List Nat) :=
  match m with
  | [] => none
  | (k2, v) :: rest => if k2 = k then some v else alistFind rest k

/-- `uploaded_macro_code[method].push_back(data)`: operator[] creates an
empty vector for a missing key. -/
def alistAppend (m : List (Nat × List Nat)) (k w : Nat) : List (Nat × List Nat) :=
  match m with
  | [] => [(k, [w])]
  | (k2, v) :: rest =>
    if k2 = k then (k2, v ++ [w]) :: rest else (k2, v) :: alistAppend rest k w

/-- The two maps owned by MacroEngine. -/
structure EngineState where
  uploadedMacroCode : List (Nat × List Nat)
  macroCache : List (Nat × List Nat)
deriving Repr, DecidableEq

/-- Observable actions of MacroEngine::Execute. -/
inductive EngineEvent where
  /-- `Compile(macro_code->second)` ran and its result was cached. -/
  | compiled (method : Nat) (code : List Nat)
  /-- `compiled_macro->second->Execute(parameters)` was invoked. -/
  | invoked (method : Nat) (code : List Nat) (params : List Nat)
  /-- LOG_ERROR "Macro ... was not uploaded", then return. -/
  | notUploadedError (method : Nat)
deriving Repr, DecidableEq

/-- MacroEngine::AddCode. -/
def engineAddCode (st : EngineState) (method w : Nat) : EngineState :=
  { st with uploadedMacroCode := alistAppend st.uploadedMacroCode method w }

/-- MacroEngine::Execute: compile and cache on a cache miss (an error if
nothing was uploaded), then invoke the cached macro. -/
def engineExecute (st : EngineState) (method : Nat) (params : List Nat) :
    EngineState × List EngineEvent :=
  match alistFind st.macroCache method with
  | some c => (st, [.invoked method c params])
  | none =>
    match alistFind st.uploadedMacroCode method with
    | none => (st, [.notUploadedError method])
    | some c =>
      ({ st with macroCache := (method, c) :: st.macroCache },
       [.compiled method c, .invoked method c params])

/-! ## Instruction-word encoder for concrete test programs -/

/-- Builds a code word from the operation, the result-operation /
branch-flag field (bits 4-6), the is_exit bit, `dst`, `src_a` and the
raw 18-bit immediate field (which also carries `src_b` in its low 3 bits
and the ALU sub-operation / bitfield fields in its upper bits). -/
def mkWord (oper ropv exitFlag dstv sav immv : Nat) : Nat :=
  oper + ropv * 16 + exitFlag * 128 + dstv * 256 + sav * 2048 + immv * 16384

/-! # Theorems

First some shared lemmas: `Except`-monad bind reductions and two lemmas
that unfold one interpreter step for a non-branch instruction (the plain
and the is_exit variant). -/

/-- Bind of a success value in the Except monad. -/
theorem exceptOk_bind {e a b : Type} (x : a) (f : a → Except e b) :
    (Except.ok x : Except e a) >>= f = f x := rfl

/-- Bind of a pure value in the Except monad. -/
theorem exceptPure_bind {e a b : Type} (x : a) (f : a → Except e b) :
    (pure x : Except e a) >>= f = f x := rfl

/-- One interpreter step on a non-branch instruction without the exit
flag: fetch, advance pc, dispatch, keep running. -/
theorem interpStep_nonbranch (oracle : Nat → Nat) (code : List Nat)
    (fuel : Nat) (w : Nat) (st st2 : IState) (evs : List MEvent) (d : Bool)
    (hfetch : getOpcode code st.pc = .ok w)
    (hd : st.delayedPc = none)
    (h7 : operation w ≠ 7)
    (hdisp : interpDispatch oracle w { st with pc := st.pc + 4 } = .ok (st2, evs))
    (hexit : isExit w = 0) :
    interpStep oracle code (fuel + 1) d st = .ok (true, st2, evs) := by
  rw [interpStep]
  rw [show ({ st with pc := st.pc + 4 } : IState) =
      { registers := st.registers, pc := st.pc + 4, delayedPc := none,
        methodAddress := st.methodAddress, parameters := st.parameters,
        nextParameterIndex := st.nextParameterIndex } from by rw [← hd]] at hdisp
  simp only [hfetch, exceptOk_bind, exceptPure_bind, hd, if_neg h7, hexit]
  rw [hdisp]
  rfl

/-- One interpreter step on a non-branch instruction with the exit flag:
fetch, advance pc, dispatch, run the delay-slot step, stop. -/
theorem interpStep_exit (oracle : Nat → Nat) (code : List Nat)
    (fuel : Nat) (w : Nat) (st st2 st3 : IState) (evs evs2 : List MEvent)
    (b d : Bool)
    (hfetch : getOpcode code st.pc = .ok w)
    (hd : st.delayedPc = none)
    (h7 : operation w ≠ 7)
    (hdisp : interpDispatch oracle w { st with pc := st.pc + 4 } = .ok (st2, evs))
    (hexit : isExit w = 1)
    (hinner : interpStep oracle code fuel true st2 = .ok (b, st3, evs2)) :
    interpStep oracle code (fuel + 1) d st = .ok (false, st3, evs ++ evs2) := by
  rw [interpStep]
  rw [show ({ st with pc := st.pc + 4 } : IState) =
      { registers := st.registers, pc := st.pc + 4, delayedPc := none,
        methodAddress := st.methodAddress, parameters := st.parameters,
        nextParameterIndex := st.nextParameterIndex } from by rw [← hd]] at hdisp
  simp only [hfetch, exceptOk_bind, exceptPure_bind, hd, if_neg h7]
  rw [hdisp]
  simp only [exceptOk_bind, if_pos hexit]
  rw [hinner]
  rfl

/-- C1: the claim states that for every valid bytecode program and every
parameter list the interpreter and the JIT produce identical Send/Read
traces and final register files.  This is refuted at a concrete input:
for the program
`[AddImmediate r2 := 1 (Move); Branch (Zero, annul, imm = 2, src_b = 2);`
`AddImmediate r3 := 7 (Move, exit); AddImmediate r4 := 9 (Move, exit);`
`AddImmediate r5 := 11 (Move)]` with parameters `[9]`, the interpreter
takes the branch (it tests register src_a = r0 = 0) and jumps to the
branch's own address + 8, while the JIT tests register src_b = r2 = 1
(not taken) and falls through; the JIT also never preloads register 1
with the first parameter.  The final register files differ. -/
theorem jit_interp_equivalence_fails :
    interpExecute (fun _ => 0)
      [mkWord 1 1 0 2 0 1, mkWord 7 2 0 0 0 2, mkWord 1 1 1 3 0 7,
       mkWord 1 1 1 4 0 9, mkWord 1 1 0 5 0 11] [9] 64 =
      .ok ({ registers := [0, 9, 1, 0, 9, 11, 0, 0], pc := 20,
             delayedPc := none, methodAddress := 0, parameters := [9],
             nextParameterIndex := 1 }, []) ∧
    jitRunCode
      [mkWord 1 1 0 2 0 1, mkWord 7 2 0 0 0 2, mkWord 1 1 1 3 0 7,
       mkWord 1 1 1 4 0 9, mkWord 1 1 0 5 0 11] (fun i => 100 + i)
      (fun _ => 0) 16 64 =
      .ok ({ registers := [0, 0, 1, 7, 9, 11, 0, 0], cursor := 0,
             result := 11, methodAddress := 0 }, []) ∧
    ([0, 9, 1, 0, 9, 11, 0, 0] : List Nat) ≠ [0, 0, 1, 7, 9, 11, 0, 0] := by
  refine ⟨by rfl, by rfl, by decide⟩

/-- C2: the claim states that after every Send, in both backends, the
method-address register's 12-bit address field advances by its 6-bit
increment field mod 4096 and the value goes to the engine register named
by the OLD address field.  The interpreter does exactly that, but the JIT
extracts the write address as `METHOD_ADDRESS >> 20` and adds
`(METHOD_ADDRESS << 6) & (63 << 20)` (changing bits 20-25, not the
bits 0-11 address field declared in macro.h).  Concrete refutation: a
program that sets method_address to 0x1005 (address 5, increment 1) and
then sends 66.  The interpreter writes register 5 and ends with
method_address 0x1006; the JIT writes register 0 (0x1005 >> 20) and
leaves method_address at 0x1005. -/
theorem send_method_address_diverges :
    interpExecute (fun _ => 0)
      [mkWord 1 2 0 2 0 4101, mkWord 1 4 1 3 0 66, mkWord 1 1 0 0 0 0] [3] 64 =
      .ok ({ registers := [0, 3, 4101, 66, 0, 0, 0, 0], pc := 12,
             delayedPc := none, methodAddress := 4102, parameters := [3],
             nextParameterIndex := 1 }, [.send 5 66]) ∧
    jitRunCode
      [mkWord 1 2 0 2 0 4101, mkWord 1 4 1 3 0 66, mkWord 1 1 0 0 0 0]
      (fun i => 100 + i) (fun _ => 0) 16 64 =
      .ok ({ registers := [0, 0, 4101, 66, 0, 0, 0, 0], cursor := 0,
             result := 0, methodAddress := 4101 }, [.send 0 66]) ∧
    (MEvent.send 5 66) ≠ (MEvent.send 0 66) := by
  refine ⟨by rfl, by rfl, by decide⟩

/-- C3: the claim states that a taken branch transfers control to the
branch instruction's own address plus `immediate * 4` in both backends.
The interpreter does (`pc = base_address + GetBranchTarget()`), but
Compile_Branch computes `jump_address = pc + GetBranchTarget()` AFTER pc
was already advanced past the branch, so the JIT jumps one instruction
too far.  Concrete refutation: an annulled always-taken branch at
address 0 with immediate 8: the interpreter resumes at word 8
(register 3 := 5 executes), the JIT jumps to word 9 (register 3 stays
0). -/
theorem branch_target_diverges :
    interpExecute (fun _ => 0)
      [mkWord 7 2 0 0 0 8, mkWord 1 1 0 2 0 1, mkWord 1 1 0 2 0 1,
       mkWord 1 1 0 2 0 1, mkWord 1 1 0 2 0 1, mkWord 1 1 0 2 0 1,
       mkWord 1 1 0 2 0 1, mkWord 1 1 0 2 0 1, mkWord 1 1 1 3 0 5,
       mkWord 1 1 1 4 0 7, mkWord 1 1 0 5 0 9] [3] 64 =
      .ok ({ registers := [0, 3, 0, 5, 7, 9, 0, 0], pc := 44,
             delayedPc := none, methodAddress := 0, parameters := [3],
             nextParameterIndex := 1 }, []) ∧
    jitRunCode
      [mkWord 7 2 0 0 0 8, mkWord 1 1 0 2 0 1, mkWord 1 1 0 2 0 1,
       mkWord 1 1 0 2 0 1, mkWord 1 1 0 2 0 1, mkWord 1 1 0 2 0 1,
       mkWord 1 1 0 2 0 1, mkWord 1 1 0 2 0 1, mkWord 1 1 1 3 0 5,
       mkWord 1 1 1 4 0 7, mkWord 1 1 0 5 0 9]
      (fun i => 100 + i) (fun _ => 0) 32 64 =
      .ok ({ registers := [0, 0, 0, 0, 7, 9, 0, 0], cursor := 0,
             result := 9, methodAddress := 0 }, []) ∧
    ((5 : Nat) ≠ 0) := by
  refine ⟨by rfl, by rfl, by decide⟩

/-- C5: the claim states that ExtractShiftLeftImmediate computes
`((reg[src_b] >> reg[src_a]) & mask) << bf_dst_bit` in both backends.
The interpreter does; the JIT's Compile_ExtractShiftLeftImmediate emits
`shl src, cl` — a LEFT shift by reg[src_a] (contradicting the comment
directly above it).  Concrete refutation: with reg[src_a] = 4,
reg[src_b] = 0x100, bf_size = 12, bf_dst_bit = 0 the interpreter computes
(0x100 >> 4) & 0xFFF = 0x10 while the JIT computes
(0x100 << 4) & 0xFFF = 0. -/
theorem extract_shift_left_immediate_diverges :
    interpExecute (fun _ => 0)
      [mkWord 1 1 0 2 0 256, mkWord 1 1 0 3 0 4, mkWord 3 1 1 4 3 3074,
       mkWord 1 1 0 0 0 0] [3] 64 =
      .ok ({ registers := [0, 3, 256, 4, 16, 0, 0, 0], pc := 16,
             delayedPc := none, methodAddress := 0, parameters := [3],
             nextParameterIndex := 1 }, []) ∧
    jitRunCode
      [mkWord 1 1 0 2 0 256, mkWord 1 1 0 3 0 4, mkWord 3 1 1 4 3 3074,
       mkWord 1 1 0 0 0 0] (fun i => 100 + i) (fun _ => 0) 16 64 =
      .ok ({ registers := [0, 0, 256, 4, 0, 0, 0, 0], cursor := 0,
             result := 0, methodAddress := 0 }, []) ∧
    ((16 : Nat) ≠ 0) := by
  refine ⟨by rfl, by rfl, by decide⟩

/-- C6: the claim states that both backends establish a fresh invocation
state at every Execute (registers zeroed, cursor = 1, register 1
preloaded with parameters[0], nothing persisting across calls).  The
interpreter does (Reset + preload); the generated JIT prologue only
zeroes NEXT_PARAMETER/RESULT/METHOD_ADDRESS: it starts the parameter
cursor at 0, never preloads register 1, and never clears the JitState
register array, which is zeroed once at construction and persists across
Execute calls.  Concretely: (a) on a fetch-one-parameter program with
parameters [7, 55] the interpreter ends with r1 = 7, r2 = 55 while the
JIT fetches memory word 0 and ends with r1 = 0, r2 = 100 (modelled
parameter memory i ↦ 100 + i); (b) running an `r2 := r2 + 1` program
twice through the same JitMacro yields r2 = 1 then r2 = 2, while the
interpreter yields r2 = 1 both times. -/
theorem execute_state_not_fresh_in_jit :
    interpExecute (fun _ => 0) [mkWord 1 0 1 2 0 0, mkWord 1 1 0 0 0 0]
      [7, 55] 64 =
      .ok ({ registers := [0, 7, 55, 0, 0, 0, 0, 0], pc := 8,
             delayedPc := none, methodAddress := 0, parameters := [7, 55],
             nextParameterIndex := 2 }, []) ∧
    jitRunCode [mkWord 1 0 1 2 0 0, mkWord 1 1 0 0 0 0]
      (fun i => 100 + i) (fun _ => 0) 16 64 =
      .ok ({ registers := [0, 0, 100, 0, 0, 0, 0, 0], cursor := 1,
             result := 0, methodAddress := 0 }, []) ∧
    (do
      let jm ← jitNew [mkWord 1 1 1 2 2 1, mkWord 1 1 0 0 0 0] 16
      let (jm1, _) ← jitExecute jm (fun i => 100 + i) (fun _ => 0) 64
      let (jm2, _) ← jitExecute jm1 (fun i => 100 + i) (fun _ => 0) 64
      pure (jm1.registers, jm2.registers) : Except MacroError _) =
      .ok ([0, 0, 1, 0, 0, 0, 0, 0], [0, 0, 2, 0, 0, 0, 0, 0]) ∧
    interpExecute (fun _ => 0) [mkWord 1 1 1 2 2 1, mkWord 1 1 0 0 0 0]
      [5] 64 =
      .ok ({ registers := [0, 5, 1, 0, 0, 0, 0, 0], pc := 8,
             delayedPc := none, methodAddress := 0, parameters := [5],
             nextParameterIndex := 1 }, []) := by
  refine ⟨by rfl, by rfl, by rfl, by rfl⟩

/-- C7: the claim states that register 0 is hardwired to zero in both
backends.  The interpreter's GetRegister/SetRegister special-case
register 0, but the JIT's Compile_GetRegister and the SetRegister store
in Compile_ProcessResult access `REGISTERS + index*4` unconditionally.
Concrete refutation: `AddImmediate 5 -> Move dst 0` followed by
`ALU Add r0 r0 -> Move dst 2`: the interpreter keeps register 0 at 0 and
computes r2 = 0 + 0 = 0; the JIT stores 5 into slot 0 and computes
r2 = 5 + 5 = 10. -/
theorem register_zero_not_hardwired_in_jit :
    interpExecute (fun _ => 0)
      [mkWord 1 1 0 0 0 5, mkWord 0 1 1 2 0 0, mkWord 1 1 0 0 0 0] [3] 64 =
      .ok ({ registers := [0, 3, 0, 0, 0, 0, 0, 0], pc := 12,
             delayedPc := none, methodAddress := 0, parameters := [3],
             nextParameterIndex := 1 }, []) ∧
    jitRunCode
      [mkWord 1 1 0 0 0 5, mkWord 0 1 1 2 0 0, mkWord 1 1 0 0 0 0]
      (fun i => 100 + i) (fun _ => 0) 16 64 =
      .ok ({ registers := [5, 0, 10, 0, 0, 0, 0, 0], cursor := 0,
             result := 5, methodAddress := 0 }, []) ∧
    ((0 : Nat) ≠ 10) := by
  refine ⟨by rfl, by rfl, by decide⟩

/-- C8: the claim states that selecting AddWithCarry/SubtractWithBorrow
or the Unused operation never silently no-ops: the interpreter raises at
execution time (true: GetALUResult's and Step's default arms), and the
JIT raises at compile time and aborts (false: Compile_ALU's default arm
emits nothing, so the instruction silently degenerates to
`result := reg[src_a]`, and a null instr_table entry for Unused only
logs LOG_CRITICAL and keeps compiling).  Concretely: for a program
containing `ALU AddWithCarry r2 r2 -> Move dst 3`, the interpreter
errors, while JIT compilation succeeds (zero critical logs) and the
generated code runs to completion storing reg[src_a] = 3 into r3; for a
program starting with an Unused operation the interpreter errors while
JIT compilation succeeds with one critical log and the generated code
runs to completion. -/
theorem jit_does_not_abort_on_unimplemented :
    interpExecute (fun _ => 0)
      [mkWord 1 1 0 2 0 3, mkWord 0 1 1 3 2 10, mkWord 1 1 0 0 0 0] [3] 64 =
      .error .unimplementedAlu ∧
    (jitCompile [mkWord 1 1 0 2 0 3, mkWord 0 1 1 3 2 10, mkWord 1 1 0 0 0 0]
      16).map (fun r => r.2) = .ok 0 ∧
    jitRunCode
      [mkWord 1 1 0 2 0 3, mkWord 0 1 1 3 2 10, mkWord 1 1 0 0 0 0]
      (fun i => 100 + i) (fun _ => 0) 16 64 =
      .ok ({ registers := [0, 0, 3, 3, 0, 0, 0, 0], cursor := 0,
             result := 0, methodAddress := 0 }, []) ∧
    interpExecute (fun _ => 0) [mkWord 6 1 1 0 0 0, mkWord 1 1 0 0 0 0]
      [3] 64 = .error .unimplementedOp ∧
    (jitCompile [mkWord 6 1 1 0 0 0, mkWord 1 1 0 0 0 0] 16).map
      (fun r => r.2) = .ok 1 ∧
    jitRunCode [mkWord 6 1 1 0 0 0, mkWord 1 1 0 0 0 0]
      (fun i => 100 + i) (fun _ => 0) 16 64 =
      .ok ({ registers := [0, 0, 0, 0, 0, 0, 0, 0], cursor := 0,
             result := 0, methodAddress := 0 }, []) := by
  refine ⟨by rfl, by rfl, by rfl, by rfl, by rfl, by rfl⟩

/-- C4 counterexample: the claim states that EVERY instruction with
is_exit set is followed by exactly one delay-slot instruction and then
the invocation halts.  But a taken annulled branch returns from Step
before the is_exit check, so its exit flag is ignored entirely.  For the
program `[Branch (Zero, annul, is_exit, imm = 1); AddImmediate r2 := 5;`
`AddImmediate r3 := 7 (exit); AddImmediate r4 := 9]` the branch at
address 0 has is_exit = 1, yet THREE further instructions execute
(r2 := 5, r3 := 7, and the real exit's delay slot r4 := 9); if the claim
held, only one further instruction would have executed, giving final
registers [0, 3, 5, 0, 0, 0, 0, 0]. -/
theorem exit_on_taken_branch_does_not_halt :
    interpExecute (fun _ => 0)
      [mkWord 7 2 1 0 0 1, mkWord 1 1 0 2 0 5, mkWord 1 1 1 3 0 7,
       mkWord 1 1 0 4 0 9] [3] 64 =
      .ok ({ registers := [0, 3, 5, 7, 9, 0, 0, 0], pc := 16,
             delayedPc := none, methodAddress := 0, parameters := [3],
             nextParameterIndex := 1 }, []) ∧
    ([0, 3, 5, 7, 9, 0, 0, 0] : List Nat) ≠ [0, 3, 5, 0, 0, 0, 0, 0] := by
  refine ⟨by rfl, by decide⟩

/-- C4 (amended): for a program consisting of a non-branch implemented
instruction with is_exit = 1 followed by one more non-branch implemented
code word without the exit flag, both backends execute the exit
instruction, then the trailing word as its delay slot (its side effects
land), and then halt: the interpreter returns the state after exactly the
two dispatches, and the JIT compiles exactly the two blocks followed by
the epilogue and the generated code applies the two block semantics in
order before returning.  (The exit flag of a taken branch is ignored by
the interpreter's early returns — see the counterexample — so the claim
is restricted to non-branch instructions.) -/
theorem exit_delay_slot_amended (w1 w2 p : Nat) (oracle pm : Nat → Nat)
    (st1 st2 : IState) (e1 e2 : List MEvent)
    (hop1 : operation w1 < 6) (hop2 : operation w2 < 6)
    (hexit1 : isExit w1 = 1) (hexit2 : isExit w2 = 0)
    (hdisp1 : interpDispatch oracle w1
      { registers := (List.replicate 8 0).set 1 p, pc := 4, delayedPc := none,
        methodAddress := 0, parameters := [p], nextParameterIndex := 1 } =
      .ok (st1, e1))
    (hp1 : st1.pc = 4) (hd1 : st1.delayedPc = none)
    (hdisp2 : interpDispatch oracle w2 { st1 with pc := 8 } = .ok (st2, e2))
    (hcur : st2.nextParameterIndex = st2.parameters.length) :
    interpExecute oracle [w1, w2] [p] 8 = .ok (st2, e1 ++ e2) ∧
    jitRunCode [w1, w2] pm oracle 4 16 =
      .ok ((jitOpSem pm oracle w2
              (jitOpSem pm oracle w1 (jInit (List.replicate 8 0))).1).1,
           (jitOpSem pm oracle w1 (jInit (List.replicate 8 0))).2 ++
           (jitOpSem pm oracle w2
              (jitOpSem pm oracle w1 (jInit (List.replicate 8 0))).1).2) := by
  have h71 : operation w1 ≠ 7 := by omega
  have h72 : operation w2 ≠ 7 := by omega
  have h61 : operation w1 ≠ 6 := by omega
  have h62 : operation w2 ≠ 6 := by omega
  constructor
  · -- interpreter side
    have hstep2 : interpStep oracle [w1, w2] (6 + 1) true st1 = .ok (true, st2, e2) := by
      refine interpStep_nonbranch oracle [w1, w2] 6 w2 st1 st2 e2 true ?_ hd1 h72 ?_ hexit2
      · rw [hp1]
        rfl
      · have h8 : ({ st1 with pc := st1.pc + 4 } : IState) = { st1 with pc := 8 } := by
          rw [hp1]
        rw [h8]
        exact hdisp2
    have hstep1 : interpStep oracle [w1, w2] (7 + 1) false (interpInit [p]) =
        .ok (false, st2, e1 ++ e2) := by
      refine interpStep_exit oracle [w1, w2] 7 w1 (interpInit [p]) st1 st2 e1 e2
        true false ?_ rfl h71 ?_ hexit1 hstep2
      · exact (rfl : getOpcode [w1, w2] 0 = Except.ok w1)
      · exact hdisp1
    have hloop : interpRunLoop oracle [w1, w2] (7 + 1) (interpInit [p]) [] =
        .ok (st2, e1 ++ e2) := by
      rw [interpRunLoop, hstep1]
      rfl
    show interpExecute oracle [w1, w2] [p] (7 + 1) = .ok (st2, e1 ++ e2)
    have e0 : interpExecute oracle [w1, w2] [p] (7 + 1) =
        (do
          let r ← interpRunLoop oracle [w1, w2] (7 + 1) (interpInit [p]) []
          if r.1.nextParameterIndex = r.1.parameters.length then .ok r
          else .error .paramCountMismatch) := rfl
    rw [e0, hloop]
    simp only [exceptOk_bind, if_pos hcur]
  · -- JIT side
    have hf0 : getOpcode [w1, w2] 0 = Except.ok w1 := rfl
    have hf04 : getOpcode [w1, w2] (0 + 4) = Except.ok w2 := rfl
    have hA : ∀ f : Nat, jitCompileStep [w1, w2] (f + 1 + 1)
        { pc := 0, prog := [JInstr.init], nextLabel := 65536, criticalLogs := 0 } =
        .ok (false,
          { pc := 0 + 4 + 4,
            prog := [JInstr.init] ++ [JInstr.label (0 / 4)] ++ [JInstr.op w1] ++
                    [JInstr.label ((0 + 4) / 4)] ++ [JInstr.op w2],
            nextLabel := 65536, criticalLogs := 0 }) := by
      intro f
      rw [jitCompileStep]
      simp only [hf0, exceptOk_bind, exceptPure_bind, if_neg h61, if_neg h71,
                 if_pos hexit1]
      rw [jitCompileStep]
      simp only [hf04, exceptOk_bind, exceptPure_bind, if_neg h62, if_neg h72,
                 hexit2]
      rfl
    have hcomp : ∀ f : Nat, jitCompile [w1, w2] (f + 1 + 1) =
        .ok ([JInstr.init, JInstr.label 0, JInstr.op w1, JInstr.label 1,
              JInstr.op w2, JInstr.ret], 0) := by
      intro f
      rw [jitCompile, jitCompileLoop, hA f]
      rfl
    show jitRunCode [w1, w2] pm oracle (2 + 1 + 1) 16 = _
    rw [jitRunCode, hcomp 2]
    rfl

/-- Witness for the amended C4 at the concrete program
`[AddImmediate r2 := 5 (Move, exit); AddImmediate r3 := 7 (Move)]` with
parameter list [3]: both backends execute the trailing word's `r3 := 7`
as the exit's delay slot before halting. -/
theorem exit_delay_slot_amended_witness :
    interpExecute (fun _ => 0) [mkWord 1 1 1 2 0 5, mkWord 1 1 0 3 0 7] [3] 8 =
      .ok ({ registers := [0, 3, 5, 7, 0, 0, 0, 0], pc := 8, delayedPc := none,
             methodAddress := 0, parameters := [3], nextParameterIndex := 1 },
           []) ∧
    jitRunCode [mkWord 1 1 1 2 0 5, mkWord 1 1 0 3 0 7] (fun _ => 0)
      (fun _ => 0) 4 16 =
      .ok ({ registers := [0, 0, 5, 7, 0, 0, 0, 0], cursor := 0, result := 7,
             methodAddress := 0 }, []) := by
  have h := exit_delay_slot_amended (mkWord 1 1 1 2 0 5) (mkWord 1 1 0 3 0 7) 3
    (fun _ => 0) (fun _ => 0)
    { registers := [0, 3, 5, 0, 0, 0, 0, 0], pc := 4, delayedPc := none,
      methodAddress := 0, parameters := [3], nextParameterIndex := 1 }
    { registers := [0, 3, 5, 7, 0, 0, 0, 0], pc := 8, delayedPc := none,
      methodAddress := 0, parameters := [3], nextParameterIndex := 1 }
    [] [] (by decide) (by decide) (by decide) (by decide) (by rfl) (by rfl)
    (by rfl) (by rfl) (by rfl)
  exact ⟨h.1, h.2.trans rfl⟩

/-- C9: MacroEngine::Execute compiles a method's accumulated code exactly
on the first Execute after upload and caches it; a later Execute with a
cache entry reuses it without compiling (and AddCode never touches the
cache, so re-uploads do not invalidate it); an Execute for a method with
no uploaded code produces only the not-uploaded error — no compilation
and no macro invocation. -/
theorem engine_cache_compile_once :
    ∀ (st : EngineState) (method w : Nat) (params : List Nat) (c : List Nat),
      (alistFind st.macroCache method = some c →
        engineExecute st method params = (st, [.invoked method c params])) ∧
      (alistFind st.macroCache method = none →
        alistFind st.uploadedMacroCode method = some c →
        engineExecute st method params =
          ({ st with macroCache := (method, c) :: st.macroCache },
           [.compiled method c, .invoked method c params]) ∧
        alistFind ((method, c) :: st.macroCache) method = some c) ∧
      (alistFind st.macroCache method = none →
        alistFind st.uploadedMacroCode method = none →
        engineExecute st method params = (st, [.notUploadedError method])) ∧
      (engineAddCode st method w).macroCache = st.macroCache := by
  intro st method w params c
  refine ⟨fun h1 => ?_, fun h1 h2 => ⟨?_, ?_⟩, fun h1 h2 => ?_, rfl⟩
  · simp [engineExecute, h1]
  · simp [engineExecute, h1, h2]
  · simp [alistFind]
  · simp [engineExecute, h1, h2]

/-- Witness for C9 at a concrete engine state: after uploading word 42 to
method 5, the first Execute compiles and caches `[42]`, the second
Execute reuses the cache entry without compiling, and an Execute of the
never-uploaded method 9 yields only the error event. -/
theorem engine_cache_compile_once_witness :
    engineExecute { uploadedMacroCode := [(5, [42])], macroCache := [] } 5 [1] =
      ({ uploadedMacroCode := [(5, [42])], macroCache := [(5, [42])] },
       [.compiled 5 [42], .invoked 5 [42] [1]]) ∧
    engineExecute { uploadedMacroCode := [(5, [42])], macroCache := [(5, [42])] }
      5 [2] =
      ({ uploadedMacroCode := [(5, [42])], macroCache := [(5, [42])] },
       [.invoked 5 [42] [2]]) ∧
    engineExecute { uploadedMacroCode := [(5, [42])], macroCache := [] } 9 [1] =
      ({ uploadedMacroCode := [(5, [42])], macroCache := [] },
       [.notUploadedError 9]) := by
  refine ⟨?_, ?_, ?_⟩
  · exact ((engine_cache_compile_once
      { uploadedMacroCode := [(5, [42])], macroCache := [] } 5 0 [1]
      [42]).2.1 rfl rfl).1
  · exact (engine_cache_compile_once
      { uploadedMacroCode := [(5, [42])], macroCache := [(5, [42])] } 5 0 [2]
      [42]).1 rfl
  · exact (engine_cache_compile_once
      { uploadedMacroCode := [(5, [42])], macroCache := [] } 9 0 [1]
      []).2.2.1 rfl rfl

/-- C10: the instruction fetch shared by both backends checks, before any
access to the code buffer, that the program counter is 4-aligned and
strictly below 4 times the number of code words; when the checks pass the
fetched word is the in-bounds element `code[pc / 4]`, and when control
flow reaches a pc at or past the end of the buffer both the interpreter's
Step and the JIT's Compile_NextInstruction fail with the bounds error
instead of reading outside the buffer. -/
theorem fetch_asserts_pc_in_bounds :
    ∀ (code : List Nat) (pc : Nat),
      (pc % 4 ≠ 0 → getOpcode code pc = .error .misalignedPc) ∧
      (pc % 4 = 0 → code.length * 4 ≤ pc →
        getOpcode code pc = .error .pcOutOfRange) ∧
      (∀ w, getOpcode code pc = .ok w →
        pc % 4 = 0 ∧ pc < code.length * 4 ∧ w = code.getD (pc / 4) 0) ∧
      (∀ (oracle : Nat → Nat) (fuel : Nat) (d : Bool) (st : IState),
        st.pc = pc → pc % 4 = 0 → code.length * 4 ≤ pc →
        interpStep oracle code (fuel + 1) d st = .error .pcOutOfRange) ∧
      (∀ (fuel : Nat) (cs : CompState),
        cs.pc = pc → pc % 4 = 0 → code.length * 4 ≤ pc →
        jitCompileStep code (fuel + 1) cs = .error .pcOutOfRange) := by
  intro code pc
  have hlt : pc % 4 = 0 → code.length * 4 ≤ pc → getOpcode code pc = .error .pcOutOfRange := by
    intro h1 h2
    simp [getOpcode, h1, Nat.not_lt.mpr h2]
  refine ⟨fun h => ?_, hlt, fun w h => ?_, ?_, ?_⟩
  · simp [getOpcode, h]
  · unfold getOpcode at h
    by_cases h1 : pc % 4 = 0
    · simp [h1] at h
      by_cases h2 : pc < code.length * 4
      · have h3 : w = code.getD (pc / 4) 0 := by
          simp [h2] at h
          rw [List.getD_eq_getElem?_getD]
          exact h.symm
        exact ⟨h1, h2, h3⟩
      · simp [h2] at h
    · simp [h1] at h
  · intro oracle fuel d st hpc h1 h2
    rw [interpStep]
    rw [hpc, hlt h1 h2]
    rfl
  · intro fuel cs hpc h1 h2
    rw [jitCompileStep]
    rw [hpc, hlt h1 h2]
    rfl

/-- Witness for C10: for the one-word program `[17]`, pc = 4 is exactly
one word past the end, so the fetch, an interpreter step and a JIT
compile step at pc = 4 all fail with the bounds error, and the in-range
fetch at pc = 0 returns the word itself. -/
theorem fetch_asserts_pc_in_bounds_witness :
    getOpcode [17] 4 = .error .pcOutOfRange ∧
    interpStep (fun _ => 0) [17] 8
      false { registers := List.replicate 8 0, pc := 4, delayedPc := none,
              methodAddress := 0, parameters := [3], nextParameterIndex := 1 } =
      .error .pcOutOfRange ∧
    jitCompileStep [17] 8
      { pc := 4, prog := [JInstr.init], nextLabel := 65536, criticalLogs := 0 } =
      .error .pcOutOfRange ∧
    (0 % 4 = 0 ∧ 0 < [17].length * 4 ∧ (17 : Nat) = [17].getD (0 / 4) 0) := by
  refine ⟨(fetch_asserts_pc_in_bounds [17] 4).2.1 rfl (by decide),
          (fetch_asserts_pc_in_bounds [17] 4).2.2.2.1 (fun _ => 0) 7 false _
            rfl rfl (by decide),
          (fetch_asserts_pc_in_bounds [17] 4).2.2.2.2 7 _ rfl rfl (by decide),
          (fetch_asserts_pc_in_bounds [17] 0).2.2.1 17 rfl⟩

end YuzuMacroEngine
